import Mathlib

/-
Verification of the PySAGA-cmd command-construction and pipeline-execution
engine (module PySAGA_cmd/saga.py and PySAGA_cmd/utils.py), via a shallow
embedding in Lean.  Python strings are Lean Strings; Python dicts holding
tool parameters are association lists with insertion-order update semantics;
filesystem facts (existence of a path, directory listings, the clock) are
passed in explicitly as oracles, mirroring exactly where the source consults
them.
-/

set_option autoImplicit false

namespace PySAGA

/-! ## Python string primitives -/

/-- Whitespace characters stripped by the Python method str.strip() with no
arguments (ASCII range: space, tab, newline, carriage return, vertical tab,
form feed). -/
def isPySpace (c : Char) : Bool :=
  c = ' ' || c = '\t' || c = '\n' || c = '\r' ||
  c = Char.ofNat 11 || c = Char.ofNat 12

/-- Python str.strip(): removes leading and trailing whitespace. -/
def pyStrip (s : String) : String :=
  String.mk (((s.toList.dropWhile isPySpace).reverse.dropWhile isPySpace).reverse)

/-- Python s.strip(".") as used on suffixes in is_raster / is_vector:
removes leading and trailing dots. -/
def stripDots (s : String) : String :=
  String.mk (((s.toList.dropWhile (· = '.')).reverse.dropWhile (· = '.')).reverse)

/-- Python s.startswith("--"), specialised to the two-dash case used by
Flag.__str__. -/
def startsDashDash (s : String) : Bool :=
  match s.toList with
  | c1 :: c2 :: _ => c1 = '-' && c2 = '-'
  | _ => false

/-! ## pathlib.PurePath name / stem / suffix

Paths are modelled in normalized POSIX form: components are the slash
separated pieces with empty and single-dot pieces discarded, as pathlib
does when it parses a path string. -/

/-- Splits a character list on a separator character. -/
def splitOnChar (sep : Char) : List Char → List (List Char)
  | [] => [[]]
  | c :: cs =>
    let r := splitOnChar sep cs
    if c = sep then [] :: r
    else
      match r with
      | [] => [[c]]
      | g :: gs => (c :: g) :: gs

/-- pathlib Path(s).name: the final path component ("" when there is none). -/
def pyPathName (s : String) : String :=
  let comps := (splitOnChar '/' s.toList).filter (fun c => c ≠ [] ∧ c ≠ ['.'])
  String.mk (comps.getLastD [])

/-- Index of the last dot in a character list, if any
(Python name.rfind, restricted to the dot character). -/
def rfindDotAux : List Char → Nat → Option Nat
  | [], _ => none
  | c :: cs, i =>
    match rfindDotAux cs (i + 1) with
    | some j => some j
    | none => if c = '.' then some i else none

def rfindDot (cs : List Char) : Option Nat :=
  rfindDotAux cs 0

/-- pathlib Path(s).suffix: the extension of the final component, kept only
when the last dot sits strictly inside the name. -/
def pySuffix (s : String) : String :=
  let n := (pyPathName s).toList
  match rfindDot n with
  | some i => if 0 < i ∧ i < n.length - 1 then String.mk (n.drop i) else ""
  | none => ""

/-- pathlib Path(s).stem: the final component without its suffix. -/
def pyStem (s : String) : String :=
  let n := (pyPathName s).toList
  match rfindDot n with
  | some i => if 0 < i ∧ i < n.length - 1 then String.mk (n.take i) else String.mk n
  | none => String.mk n

/-! ## Flag (saga.py lines 104-128) -/

/-- The Flag dataclass: at most one modifier string. -/
structure Flag where
  flag : Option String
deriving DecidableEq, Repr

/-- Flag.__str__: empty for no flag, otherwise the flag with a two-dash
marker put in front unless already present. -/
def Flag.str : Flag → String
  | ⟨none⟩ => ""
  | ⟨some f⟩ => if startsDashDash f then f else "--" ++ f

/-- Flag.__bool__: a Flag is truthy exactly when a flag string is stored. -/
def Flag.truthy : Flag → Bool
  | ⟨none⟩ => false
  | ⟨some _⟩ => true

/-- The flag property setter (saga.py lines 216-221): any non-None value is
converted to str and wrapped in a fresh Flag object. -/
def flag_setter (v : Option String) : Flag := ⟨v⟩

/-- The flag property deleter (saga.py lines 223-226): unconditionally
replaces the stored flag with an empty Flag; the body has no raise
statement, so deleting a never-set flag is a silent no-op reset. -/
def flag_deleter (_f : Flag) : Flag := ⟨none⟩

/-! ## Command token assembly (saga.py lines 667-693)

Command.__init__ receives heterogeneous Python objects and keeps
str(arg) for each arg that is truthy.  An argument is therefore modelled
by its truthiness together with its str() rendering. -/

structure Arg where
  truthy : Bool
  str : String

/-- Command.__init__: args = [str(arg) for arg in args if arg]. -/
def commandArgs (args : List Arg) : List String :=
  (args.filter Arg.truthy).map Arg.str

/-- A plain Python str argument: truthy exactly when non-empty. -/
def strArg (s : String) : Arg := ⟨!(s == ""), s⟩

/-- A Python object (SAGACMD, Library) that defines neither __bool__ nor
__len__: always truthy; its str() rendering is given. -/
def objArg (s : String) : Arg := ⟨true, s⟩

/-- A Flag argument: truthiness from Flag.__bool__, text from Flag.__str__. -/
def flagArg (f : Flag) : Arg := ⟨f.truthy, f.str⟩

/-! ## Parameters (saga.py lines 131-188)

Parameters is a UserDict with insertion-ordered string keys and values.
An update of an existing key keeps its position; a new key is appended,
exactly as for a Python dict. -/

/-- Python dict assignment d[k] = v on an insertion-ordered dict. -/
def dictSet : List (String × String) → String → String → List (String × String)
  | [], k, v => [(k, v)]
  | (k1, v1) :: rest, k, v =>
    if k1 = k then (k, v) :: rest else (k1, v1) :: dictSet rest k v

/-- Python dict lookup d[k] (keys are unique in a dict, so first match). -/
def dictGet : List (String × String) → String → Option String
  | [], _ => none
  | (k1, v1) :: rest, k => if k1 = k then some v1 else dictGet rest k

/-- Whether a key is present. -/
def hasKey : List (String × String) → String → Bool
  | [], _ => false
  | (k1, _) :: rest, k => k1 == k || hasKey rest k

/-- Python str.upper() on parameter names (ASCII, as SAGA parameter names
are). -/
def pyUpper (s : String) : String :=
  String.mk (s.toList.map Char.toUpper)

/-- One formatted token of Parameters.formatted. -/
def fmtToken (param value : String) : String :=
  "-" ++ pyUpper param ++ "=" ++ value

/-- Parameters.formatted (saga.py lines 184-188): one token per stored
entry, in insertion order, with the name upper-cased. -/
def formatted (d : List (String × String)) : List String :=
  d.map (fun kv => fmtToken kv.1 kv.2)

/-- A Python value passed as a tool parameter (anything supporting str). -/
inductive PyVal where
  | str (s : String)
  | int (n : Int)
  | boolean (b : Bool)
  | pathLike (s : String)
deriving DecidableEq, Repr

/-- Python str() on such a value. -/
def PyVal.toStr : PyVal → String
  | .str s => s
  | .int n => toString n
  | .boolean b => if b then "True" else "False"
  | .pathLike s => s

/-- The ambient facts Parameters.__setitem__ consults: whether a path
currently exists on disk, the suffix infer_file_extension would produce for
an existing suffixless path, the integer part of time.time(), and the str of
the owning program temp_dir. -/
structure PEnv where
  pathEx : String → Bool
  inferSuffix : String → String
  unix : Nat
  tempDir : String

/-- The value actually stored by Parameters.__setitem__ (saga.py lines
162-179) for parameter name param and already-stringified value raw:
a value whose stem is the literal token temp and which does not exist on
disk is redirected into the temp directory under the name
param_unixtime with the original suffix kept; an existing suffixless
value gets the inferred suffix appended; anything else is stored as is. -/
def setItemValue (env : PEnv) (param raw : String) : String :=
  let ex := env.pathEx raw
  let suffix := pySuffix raw
  if pyStem raw == "temp" && !ex then
    env.tempDir ++ "/" ++ param ++ "_" ++ toString env.unix ++ suffix
  else if ex && (suffix == "") then
    raw ++ env.inferSuffix raw
  else raw

/-- Parameters.__setitem__: converts the value to str, applies the temp
and suffix-inference rules, and stores the result under the given name. -/
def paramsSetItem (env : PEnv) (d : List (String × String))
    (param : String) (v : PyVal) : List (String × String) :=
  dictSet d param (setItemValue env param v.toStr)

/-- Parameters.__init__ / Tool.__call__: assigns every keyword argument in
order through __setitem__. -/
def setParams (env : PEnv) : List (String × String) → List (String × PyVal) →
    List (String × String)
  | d, [] => d
  | d, (k, v) :: rest => setParams env (paramsSetItem env d k v) rest

/-! ## Tool.command (saga.py lines 512-523)

The args handed to Command are: the SAGACMD object (always truthy, str is
the program path), the Flag, the Library object (always truthy, str is the
library name), the tool name (a plain str, dropped when empty), and the
formatted parameter tokens (plain strs). -/

def tool_command (saga_cmd : String) (fl : Flag) (library tool : String)
    (parameters : List (String × String)) : List String :=
  commandArgs
    ([objArg saga_cmd, flagArg fl, objArg library, strArg tool] ++
      (formatted parameters).map strArg)

/-! ## Output construction (saga.py lines 713-749) and ExecutionError
(lines 897-907)

The pipes of the completed process are modelled as the full text each one
would yield on read() (none when the pipe was not opened).  Raising is
modelled with Except. -/

/-- ExecutionError carries the (stripped) stderr text and the str() identity
of the executable that produced it. -/
structure ExecutionError where
  stderr : String
  target : String
deriving DecidableEq, Repr

/-- The captured fields of an Output object after __post_init__. -/
structure OutputState where
  stdout : Option String
  stderr : Option String
  stdin : Option String
deriving DecidableEq, Repr

/-- Output.__post_init__: reads stdout; then, when the stderr pipe exists
and its stripped text is truthy, either raises ExecutionError (ignore_stderr
false) or records the stripped text; finally reads stdin. -/
def output_post_init (target : String)
    (stdoutPipe stderrPipe stdinPipe : Option String) (ignore : Bool) :
    Except ExecutionError OutputState :=
  match stderrPipe with
  | none => .ok ⟨stdoutPipe, none, stdinPipe⟩
  | some s =>
    if pyStrip s == "" then .ok ⟨stdoutPipe, none, stdinPipe⟩
    else if ignore then .ok ⟨stdoutPipe, some (pyStrip s), stdinPipe⟩
    else .error ⟨pyStrip s, target⟩

/-- Whether an Except result is the raising branch. -/
def isError : Except ExecutionError OutputState → Bool
  | .error _ => true
  | .ok _ => false

/-! ## Pipeline.execute (saga.py lines 639-654)

One stage of a pipeline is a Tool together with what its child process
would produce; executing a stage spawns the process and wraps it in a
ToolOutput, whose construction applies output_post_init. -/

/-- One pipeline stage: the str() name of the tool plus the text its
process writes on each captured pipe. -/
structure StageSpec where
  name : String
  stdout : Option String
  stderr : Option String
deriving DecidableEq, Repr

/-- Whether constructing this stage output raises (stderr pipe with truthy
stripped text, while ignore_stderr is false). -/
def stageFails (ignore : Bool) (t : StageSpec) : Bool :=
  match t.stderr with
  | none => false
  | some s => !(pyStrip s == "") && !ignore

/-- The OutputState of a stage whose construction does not raise. -/
def stageOutput (ignore : Bool) (t : StageSpec) : OutputState :=
  match t.stderr with
  | none => ⟨t.stdout, none, none⟩
  | some s =>
    if pyStrip s == "" then ⟨t.stdout, none, none⟩
    else if ignore then ⟨t.stdout, some (pyStrip s), none⟩
    else ⟨t.stdout, none, none⟩

/-- The ExecutionError a failing stage raises. -/
def stageError (t : StageSpec) : ExecutionError :=
  ⟨pyStrip (t.stderr.getD ""), t.name⟩

/-- Pipeline.execute: runs the stages front to back, accumulating one
output per stage; the first stage whose output construction raises aborts
the loop.  The first component records, in order, the names of the stages
whose processes were actually spawned. -/
def pipeline_execute (ignore : Bool) :
    List StageSpec → List String × Except ExecutionError (List OutputState)
  | [] => ([], .ok [])
  | t :: ts =>
    match output_post_init t.name t.stdout t.stderr none ignore with
    | .error e => ([t.name], .error e)
    | .ok o =>
      let r := pipeline_execute ignore ts
      (t.name :: r.1, r.2.map (fun os => o :: os))

/-! ## infer_file_extension (utils.py lines 86-111)

A sibling directory entry is modelled by its stem, suffix, the value
sys.getsizeof would return on its Path object (the in-memory object size,
which the source uses as sort key), and its on-disk byte size (which the
source never consults). -/

structure DirEntry where
  stem : String
  suffix : String
  objSize : Nat
  fileSize : Nat
deriving DecidableEq, Repr

/-- sorted(xs, key)[-1] for a stable ascending sort: the element with the
maximal key, ties resolved in favour of the latest element. -/
def lastMaxBy (key : DirEntry → Nat) (x : DirEntry) (xs : List DirEntry) :
    DirEntry :=
  xs.foldl (fun acc e => if key acc ≤ key e then e else acc) x

/-- infer_file_extension: among directory entries sharing the target stem,
pick .shp or .sdat when exactly one of the two occurs; with both or
neither, pick the suffix of sorted(files_filtered, key=sys.getsizeof)[-1];
with no sibling at all the suffix is empty. -/
def infer_file_extension (targetStem : String) (dirList : List DirEntry) :
    String :=
  let ff := dirList.filter (fun f => f.stem == targetStem)
  let hasShp := ff.any (fun f => f.suffix == ".shp")
  let hasSdat := ff.any (fun f => f.suffix == ".sdat")
  match ff with
  | [] => ""
  | x :: xs =>
    if hasShp && !hasSdat then ".shp"
    else if !hasShp && hasSdat then ".sdat"
    else (lastMaxBy (fun e => e.objSize) x xs).suffix

/-- Modelled from the spec: decision rule (b) of extension inference reads
"the suffix of the sibling file with the largest byte size is chosen", so
this variant sorts the matching siblings by on-disk byte size instead of
the in-memory object size. -/
def spec_infer_file_extension (targetStem : String) (dirList : List DirEntry) :
    String :=
  let ff := dirList.filter (fun f => f.stem == targetStem)
  let hasShp := ff.any (fun f => f.suffix == ".shp")
  let hasSdat := ff.any (fun f => f.suffix == ".sdat")
  match ff with
  | [] => ""
  | x :: xs =>
    if hasShp && !hasSdat then ".shp"
    else if !hasShp && hasSdat then ".sdat"
    else (lastMaxBy (fun e => e.fileSize) x xs).suffix

/-! ## Format sets and file classification (saga.py lines 269-307, 790-833,
856-894) -/

/-- get_formats (saga.py lines 856-894): returns None when the version is
unknown or the major number is below 4; otherwise the extension set parsed
from the probe tool output (passed in as an oracle, since it comes from a
child process). -/
def get_formats (version : Option (Nat × Nat × Nat)) (probe : List String) :
    Option (List String) :=
  match version with
  | none => none
  | some v => if v.1 < 4 then none else some probe

/-- The two cached format fields of a SAGA object. -/
structure FormatsState where
  rasterFormats : Option (List String)
  vectorFormats : Option (List String)
deriving DecidableEq, Repr

/-- SAGA.get_raster_formats (lines 292-302): on first call, unions the
probe result (empty when the probe is skipped) with the three native SAGA
grid extensions and caches it; later calls return the cache.  Python sets
are modelled as lists up to membership. -/
def get_raster_formats (version : Option (Nat × Nat × Nat))
    (probe : List String) (st : FormatsState) :
    List String × FormatsState :=
  match st.rasterFormats with
  | some f => (f, st)
  | none =>
    let f := (get_formats version probe).getD [] ++ ["sdat", "sgrd", "sg-grd-z"]
    (f, ⟨some f, st.vectorFormats⟩)

/-- SAGA.get_vector_formats (lines 304-307): caches the probe result, which
stays None whenever the probe is skipped. -/
def get_vector_formats (version : Option (Nat × Nat × Nat))
    (probe : List String) (st : FormatsState) :
    Option (List String) × FormatsState :=
  match st.vectorFormats with
  | some f => (some f, st)
  | none =>
    let f := get_formats version probe
    (f, ⟨st.rasterFormats, f⟩)

/-- The warm-up performed by Tool.execute when both caches are unset and
infer_obj_type holds: both format getters run once. -/
def run_format_probes (version : Option (Nat × Nat × Nat))
    (probeR probeV : List String) (st : FormatsState) : FormatsState :=
  (get_vector_formats version probeV (get_raster_formats version probeR st).2).2

/-- ToolOutput.is_raster (lines 790-795): the format cache is consulted
directly; an unset cache classifies nothing. -/
def is_raster (st : FormatsState) (suffix : String) : Bool :=
  match st.rasterFormats with
  | none => false
  | some fs => fs.contains (stripDots suffix)

/-- ToolOutput.is_vector (lines 804-809). -/
def is_vector (st : FormatsState) (suffix : String) : Bool :=
  match st.vectorFormats with
  | none => false
  | some fs => fs.contains (stripDots suffix)

inductive FileKind where
  | raster
  | vector
  | generic
deriving DecidableEq, Repr

/-- The classification branch of ToolOutput.get_files (lines 817-833) for
one existing output file, keyed by its suffix: raster is tried first, then
vector, and everything else stays a plain path. -/
def classify_file (st : FormatsState) (suffix : String) : FileKind :=
  if is_raster st suffix then .raster
  else if is_vector st suffix then .vector
  else .generic

/-! ## Tool attribute lookup (saga.py lines 504-510)

Python attribute access raises AttributeError for a missing attribute
unless the class overrides __getattr__; Tool does override it, with a body
that is a bare pass, hence the fallback returns None. -/

/-- Result of a Python attribute access: a value (possibly None), or an
AttributeError. -/
inductive AttrResult where
  | val (v : Option String)
  | attrError
deriving DecidableEq, Repr

/-- Attribute read on a Tool whose parameter attributes are the given dict:
a set parameter yields its value; a missing name falls through to
Tool.__getattr__, whose pass body returns None instead of raising. -/
def tool_getattr (attrs : List (String × String)) (name : String) :
    AttrResult :=
  match dictGet attrs name with
  | some v => .val (some v)
  | none => .val none

/-! ## Flag inheritance with reference semantics (saga.py lines 216-226,
407-408, 483-485)

To settle whether a child sees later parent flag mutations, Flag objects
live in an explicit heap (allocation-ordered list); an object reference is
an index.  Library.__post_init__ and Tool.__post_init__ copy the parent
reference (self._flag = parent.flag); the flag setter and deleter both
allocate a fresh Flag object and rebind the owner reference, and no code
in the module mutates an existing Flag object in place. -/

abbrev FlagHeap := List Flag

/-- Dereference a Flag object. -/
def readFlag (h : FlagHeap) (r : Nat) : Flag :=
  h.getD r ⟨none⟩

/-- Allocate a fresh Flag object, returning the grown heap and its
reference. -/
def allocFlag (h : FlagHeap) (f : Flag) : FlagHeap × Nat :=
  (h ++ [f], h.length)

/-- A mutation of the flag property of one target: the setter with some
value, or the deleter. -/
inductive FlagMut where
  | setF (v : Option String)
  | delF
deriving DecidableEq, Repr

/-- Apply one flag mutation to the owner: both the setter body
(self._flag = Flag(flag)) and the deleter body (self._flag = Flag())
allocate a new object and rebind the owner reference. -/
def applyFlagMut (h : FlagHeap) (_r : Nat) : FlagMut → FlagHeap × Nat
  | .setF v => allocFlag h (flag_setter v)
  | .delF => allocFlag h ⟨none⟩

/-- Apply a sequence of flag mutations to the owner, threading the heap. -/
def applyFlagMuts (h : FlagHeap) (r : Nat) : List FlagMut → FlagHeap × Nat
  | [] => (h, r)
  | m :: ms =>
    let hr := applyFlagMut h r m
    applyFlagMuts hr.1 hr.2 ms

/-- Child construction (Library.__post_init__ line 408, Tool.__post_init__
line 484): the child flag field receives the parent current reference. -/
def childFlagRef (parentRef : Nat) : Nat := parentRef

/-! ## SAGA.temp_dir lifecycle (saga.py lines 50-51, 280, 309-331)

The filesystem is abstracted to the set of directories the SAGA object can
touch: tempfile.mkdtemp always creates a fresh empty directory at a path
not currently in use, modelled by an allocation counter whose values
identify directory paths. -/

/-- Filesystem view: existing directories with their contents, plus the
mkdtemp freshness counter, plus the _temp_dir field of the SAGA object. -/
structure TempState where
  fs : List (Nat × List String)
  counter : Nat
  tdir : Nat
deriving DecidableEq, Repr

/-- Whether a directory currently exists. -/
def dirEx (fs : List (Nat × List String)) (p : Nat) : Bool :=
  fs.any (fun d => d.1 == p)

/-- Contents of a directory (Path.iterdir). -/
def dirContents (fs : List (Nat × List String)) (p : Nat) : List String :=
  ((fs.find? (fun d => d.1 == p)).map Prod.snd).getD []

/-- tempfile.mkdtemp: creates a fresh empty directory. -/
def mkdtempOp (st : TempState) : Nat × TempState :=
  (st.counter, ⟨st.fs ++ [(st.counter, [])], st.counter + 1, st.tdir⟩)

/-- The temp_dir property (lines 309-313): when the remembered directory no
longer exists, a fresh one is created and remembered; the returned path
always names the remembered directory. -/
def temp_dir_access (st : TempState) : Nat × TempState :=
  if dirEx st.fs st.tdir then (st.tdir, st)
  else
    let pr := mkdtempOp st
    (pr.1, ⟨pr.2.fs, pr.2.counter, pr.1⟩)

/-- The temp_files property (lines 315-322): lists the directory returned
by the temp_dir property. -/
def temp_files_access (st : TempState) : List String × TempState :=
  let pr := temp_dir_access st
  (dirContents pr.2.fs pr.1, pr.2)

/-- shutil.rmtree on a directory: the directory entry disappears from the
filesystem view. -/
def removeDir : List (Nat × List String) → Nat → List (Nat × List String)
  | [], _ => []
  | d :: rest, p => if d.1 == p then removeDir rest p else d :: removeDir rest p

/-- SAGA.temp_dir_cleanup (lines 324-331): snapshots temp_files (which goes
through the temp_dir property), then removes the directory the temp_dir
property yields. -/
def temp_dir_cleanup (st : TempState) : TempState :=
  let files := temp_files_access st
  let pr := temp_dir_access files.2
  ⟨removeDir pr.2.fs pr.1, pr.2.counter, pr.2.tdir⟩

/-- mkdtemp freshness: no directory at or beyond the counter exists yet.
This is the guarantee tempfile.mkdtemp provides on the real filesystem. -/
def freshCounter (st : TempState) : Prop :=
  ∀ n, st.counter ≤ n → dirEx st.fs n = false

/-- A concrete setitem environment: nothing exists on disk, inference adds
nothing, the clock reads 1712000000, the temp directory is /tmp/t. -/
def c2env : PEnv := ⟨fun _ => false, fun _ => "", 1712000000, "/tmp/t"⟩

/-- A concrete setitem environment for exercising parameter assignment. -/
def c7env : PEnv := ⟨fun _ => false, fun _ => "", 1712000000, "/tmp/t"⟩

/-! ## Helper lemmas -/

theorem fmtToken_ne_empty (k v : String) : fmtToken k v ≠ "" := by
  intro h
  have h2 : (fmtToken k v).data = '-' :: ((pyUpper k ++ "=" ++ v).data) := rfl
  have h1 : (fmtToken k v).data = ("" : String).data := congrArg String.data h
  rw [h2] at h1
  exact absurd h1 (by simp)

theorem flagStr_ne_empty (f : String) : Flag.str ⟨some f⟩ ≠ "" := by
  simp only [Flag.str]
  by_cases hc : startsDashDash f = true
  · rw [if_pos hc]
    intro h
    rw [h] at hc
    exact absurd hc (by decide)
  · rw [if_neg hc]
    intro h
    have h1 : ("--" ++ f).data = ("" : String).data := congrArg String.data h
    have h2 : ("--" ++ f).data = '-' :: '-' :: f.data := rfl
    rw [h2] at h1
    exact absurd h1 (by simp)

theorem strArg_truthy {s : String} (h : s ≠ "") : (strArg s).truthy = true := by
  simp [strArg, h]

theorem commandArgs_append (a b : List Arg) :
    commandArgs (a ++ b) = commandArgs a ++ commandArgs b := by
  simp [commandArgs, List.filter_append]

theorem commandArgs_strs (l : List String) (h : ∀ x ∈ l, x ≠ "") :
    commandArgs (l.map strArg) = l := by
  induction l with
  | nil => rfl
  | cons a rest ih =>
    have ha : (strArg a).truthy = true := strArg_truthy (h a (by simp))
    have hrest := ih (fun x hx => h x (by simp [hx]))
    rw [List.map_cons, commandArgs, List.filter_cons_of_pos ha, List.map_cons]
    show a :: commandArgs (rest.map strArg) = a :: rest
    rw [hrest]

theorem commandArgs_fmt (params : List (String × String)) :
    commandArgs ((formatted params).map strArg) = formatted params := by
  refine commandArgs_strs (formatted params) ?_
  intro x hx
  simp only [formatted, List.mem_map] at hx
  obtain ⟨kv, _, hkv⟩ := hx
  exact hkv ▸ fmtToken_ne_empty kv.1 kv.2

theorem dictGet_dictSet_self (d : List (String × String)) (k v : String) :
    dictGet (dictSet d k v) k = some v := by
  induction d with
  | nil => simp [dictSet, dictGet]
  | cons kv rest ih =>
    by_cases h : kv.1 = k
    · simp [dictSet, dictGet, h]
    · simp [dictSet, dictGet, h, ih]

theorem dictGet_dictSet_ne (d : List (String × String)) (k k2 v : String)
    (h : k2 ≠ k) : dictGet (dictSet d k2 v) k = dictGet d k := by
  induction d with
  | nil => simp [dictSet, dictGet, h]
  | cons kv rest ih =>
    obtain ⟨k1, v1⟩ := kv
    by_cases h1 : k1 = k2
    · rw [dictSet, if_pos h1]
      simp only [dictGet]
      rw [if_neg h, if_neg (fun hk => h (h1 ▸ hk))]
    · rw [dictSet, if_neg h1]
      simp only [dictGet]
      by_cases h2 : k1 = k
      · rw [if_pos h2, if_pos h2]
      · rw [if_neg h2, if_neg h2, ih]

theorem hasKey_append (d : List (String × String)) (k1 v1 k : String) :
    hasKey (d ++ [(k1, v1)]) k = (hasKey d k || (k1 == k)) := by
  induction d with
  | nil => simp [hasKey]
  | cons kv rest ih => simp [hasKey, ih, Bool.or_assoc]

theorem dictSet_of_not_hasKey (d : List (String × String)) (k v : String)
    (h : hasKey d k = false) : dictSet d k v = d ++ [(k, v)] := by
  induction d with
  | nil => rfl
  | cons kv rest ih =>
    simp only [hasKey, Bool.or_eq_false_iff] at h
    have hk : kv.1 ≠ k := by
      intro he
      have hb : (kv.1 == k) = true := beq_iff_eq.mpr he
      rw [hb] at h
      exact absurd h.1 (by simp)
    simp [dictSet, hk, ih h.2]

/-! ## C1 -/

/-- Claim C1, counterexample: a Tool whose library name is the empty string
produces a command containing an empty token, because the Library object is
always truthy and the emptiness filter of Command.__init__ tests the object,
not its str() rendering. -/
theorem c1_empty_library_token :
    "" ∈ tool_command "saga_cmd" ⟨none⟩ "" "0" [] := by
  decide

/-- Claim C1, amended: provided the program path, library name and tool name
are non-empty, the command a Tool builds is exactly
[program, flag?, library, tool, formatted parameters] with the flag token
omitted when no flag is set, and it contains no empty-string token. -/
theorem c1_tool_command_shape (p l t : String) (fl : Flag)
    (params : List (String × String)) (hp : p ≠ "") (hl : l ≠ "") (ht : t ≠ "") :
    tool_command p fl l t params =
      [p] ++ (if fl.truthy then [fl.str] else []) ++ [l, t] ++ formatted params
    ∧ ∀ x ∈ tool_command p fl l t params, x ≠ "" := by
  have hmain : tool_command p fl l t params =
      [p] ++ (if fl.truthy then [fl.str] else []) ++ [l, t] ++ formatted params := by
    rw [tool_command, commandArgs_append, commandArgs_fmt]
    obtain ⟨o⟩ := fl
    cases o with
    | none =>
      simp [commandArgs, objArg, flagArg, Flag.truthy, Flag.str, strArg, ht]
    | some f =>
      simp [commandArgs, objArg, flagArg, Flag.truthy, strArg, ht]
  refine ⟨hmain, ?_⟩
  intro x hx
  rw [hmain] at hx
  simp only [List.append_assoc, List.mem_append, List.cons_append,
    List.nil_append, List.mem_cons, List.not_mem_nil, or_false] at hx
  rcases hx with hx | hx | hx
  · exact hx ▸ hp
  · obtain ⟨o⟩ := fl
    cases o with
    | none => simp [Flag.truthy] at hx
    | some f =>
      simp [Flag.truthy] at hx
      exact hx ▸ flagStr_ne_empty f
  · rcases hx with hx | hx | hx
    · exact hx ▸ hl
    · exact hx ▸ ht
    · simp only [formatted, List.mem_map] at hx
      obtain ⟨kv, _, hkv⟩ := hx
      exact hkv ▸ fmtToken_ne_empty kv.1 kv.2

/-- Witness for C1 amended, at a concrete tool invocation. -/
theorem c1_tool_command_shape_witness :
    tool_command "saga_cmd" ⟨some "help"⟩ "ta_morphometry" "0"
        [("elevation", "dem.tif")] =
      ["saga_cmd", "--help", "ta_morphometry", "0", "-ELEVATION=dem.tif"] := by
  have h := (c1_tool_command_shape "saga_cmd" "ta_morphometry" "0"
    ⟨some "help"⟩ [("elevation", "dem.tif")]
    (by decide) (by decide) (by decide)).1
  rw [h]
  decide

/-! ## C2 -/

/-- Claim C2: assigning a value whose stem is the literal token temp and
which does not currently exist on disk stores the redirected path
tempdir/param_unixtime(original suffix) at this single assignment, and a
later assignment to a different parameter (under a possibly different clock
and filesystem) leaves the stored value untouched. -/
theorem c2_temp_substitution (env env2 : PEnv) (d : List (String × String))
    (param : String) (v : PyVal)
    (hstem : pyStem v.toStr = "temp") (hex : env.pathEx v.toStr = false) :
    dictGet (paramsSetItem env d param v) param =
      some (env.tempDir ++ "/" ++ param ++ "_" ++ toString env.unix ++
        pySuffix v.toStr)
    ∧ paramsSetItem env d param v =
      dictSet d param (env.tempDir ++ "/" ++ param ++ "_" ++
        toString env.unix ++ pySuffix v.toStr)
    ∧ ∀ (p2 : String) (v2 : PyVal), p2 ≠ param →
        dictGet (paramsSetItem env2 (paramsSetItem env d param v) p2 v2) param =
        dictGet (paramsSetItem env d param v) param := by
  have hcond : (pyStem v.toStr == "temp" && !env.pathEx v.toStr) = true := by
    rw [hstem, hex]
    rfl
  have hval : setItemValue env param v.toStr =
      env.tempDir ++ "/" ++ param ++ "_" ++ toString env.unix ++
        pySuffix v.toStr := by
    rw [setItemValue]
    simp only [hcond, if_pos]
  refine ⟨?_, ?_, ?_⟩
  · rw [paramsSetItem, hval, dictGet_dictSet_self]
  · rw [paramsSetItem, hval]
  · intro p2 v2 hne
    exact dictGet_dictSet_ne (paramsSetItem env d param v) param p2
      (setItemValue env2 p2 v2.toStr) hne

/-- Witness for C2 at the concrete assignment slope = temp.sdat. -/
theorem c2_temp_substitution_witness :
    dictGet (paramsSetItem c2env [] "slope" (PyVal.str "temp.sdat")) "slope" =
      some "/tmp/t/slope_1712000000.sdat" := by
  have h := (c2_temp_substitution c2env c2env [] "slope" (PyVal.str "temp.sdat")
    (by decide) rfl).1
  rw [h]
  decide

/-! ## C3 -/

/-- Claim C3: constructing an Output raises ExecutionError exactly when the
stderr pipe text is non-empty after stripping and ignore_stderr is false; a
whitespace-only stderr counts as empty and yields a normal Output with no
recorded stderr; a raised error carries the stripped stderr text and the
identity of the producing target; without a stderr pipe nothing raises. -/
theorem c3_stderr_error_iff (target : String) (out stdin : Option String)
    (s : String) (ignore : Bool) :
    isError (output_post_init target out (some s) stdin ignore) =
      (!(pyStrip s == "") && !ignore)
    ∧ (pyStrip s = "" →
        output_post_init target out (some s) stdin ignore = .ok ⟨out, none, stdin⟩)
    ∧ (∀ e, output_post_init target out (some s) stdin ignore = .error e →
        e = ⟨pyStrip s, target⟩)
    ∧ isError (output_post_init target out none stdin ignore) = false := by
  by_cases he : pyStrip s == ""
  · refine ⟨?_, ?_, ?_, rfl⟩
    · simp [output_post_init, isError, he]
    · intro _
      simp [output_post_init, he]
    · intro e hcontra
      simp [output_post_init, he] at hcontra
  · cases ignore with
    | false =>
      refine ⟨?_, ?_, ?_, rfl⟩
      · simp [output_post_init, isError, he]
      · intro h0
        exact absurd (beq_iff_eq.mpr h0) he
      · intro e hline
        simp [output_post_init, he] at hline
        exact hline.symm
    | true =>
      refine ⟨?_, ?_, ?_, rfl⟩
      · simp [output_post_init, isError, he]
      · intro h0
        exact absurd (beq_iff_eq.mpr h0) he
      · intro e hline
        simp [output_post_init, he] at hline

/-- Witness for C3: a concrete stderr raises with the stripped text, a
whitespace-only stderr does not raise. -/
theorem c3_stderr_error_iff_witness :
    isError (output_post_init "tool" none (some " err \n") none false) = true
    ∧ output_post_init "tool" none (some " \t ") none true =
        .ok ⟨none, none, none⟩ := by
  constructor
  · have h := (c3_stderr_error_iff "tool" none none " err \n" false).1
    rw [h]
    decide
  · have h := (c3_stderr_error_iff "tool" none none " \t " true).2.1
    exact h (by decide)

/-! ## C4 -/

/-- Claim C4: the tie-break rule of infer_file_extension.  On a directory
holding dem.tif (5000000 bytes on disk) and then dem.aux (10 bytes), with
the constant sys.getsizeof value 88 both Path objects have, the code
returns .aux — the suffix of the LAST sibling — while the rule the claim
and the function docstring state (largest byte size) returns .tif. -/
theorem c4_getsizeof_not_filesize :
    infer_file_extension "dem"
        [⟨"dem", ".tif", 88, 5000000⟩, ⟨"dem", ".aux", 88, 10⟩] = ".aux"
    ∧ spec_infer_file_extension "dem"
        [⟨"dem", ".tif", 88, 5000000⟩, ⟨"dem", ".aux", 88, 10⟩] = ".tif" := by
  exact ⟨rfl, rfl⟩

theorem classify_file_some_none (L : List String) (suffix : String) :
    classify_file ⟨some L, none⟩ suffix =
      (if L.contains (stripDots suffix) then FileKind.raster
       else FileKind.generic) := by
  have hr : is_raster ⟨some L, none⟩ suffix = L.contains (stripDots suffix) :=
    rfl
  have hv : is_vector ⟨some L, none⟩ suffix = false := rfl
  simp only [classify_file]
  rw [hr, hv]
  simp

/-! ## C5 -/

/-- Claim C5, counterexample: with detected version 3.9.9 (below 4.0.0),
after the format warm-up that Tool.execute performs, the raster format set
is NOT left empty — get_raster_formats unions in the three native SAGA grid
extensions — and a file with suffix .sdat is classified as raster, not
generic. -/
theorem c5_raster_not_generic_below_4 :
    (run_format_probes (some (3, 9, 9)) [] [] ⟨none, none⟩).rasterFormats =
      some ["sdat", "sgrd", "sg-grd-z"]
    ∧ classify_file (run_format_probes (some (3, 9, 9)) [] [] ⟨none, none⟩)
        ".sdat" = .raster := by
  decide

/-- Claim C5, amended: for a detected version with major number below 4,
the format probe is skipped, the vector format set stays unknown and no
file is classified vector; the raster format set however becomes exactly
the three native SAGA grid extensions, so files with one of those suffixes
are classified raster and all other files generic. -/
theorem c5_low_version_formats (maj mi pa : Nat) (probeR probeV : List String)
    (suffix : String) (h : maj < 4) :
    (run_format_probes (some (maj, mi, pa)) probeR probeV ⟨none, none⟩).rasterFormats
        = some ["sdat", "sgrd", "sg-grd-z"]
    ∧ (run_format_probes (some (maj, mi, pa)) probeR probeV
        ⟨none, none⟩).vectorFormats = none
    ∧ classify_file (run_format_probes (some (maj, mi, pa)) probeR probeV
        ⟨none, none⟩) suffix ≠ .vector
    ∧ ((["sdat", "sgrd", "sg-grd-z"] : List String).contains (stripDots suffix)
          = false →
        classify_file (run_format_probes (some (maj, mi, pa)) probeR probeV
          ⟨none, none⟩) suffix = .generic)
    ∧ ((["sdat", "sgrd", "sg-grd-z"] : List String).contains (stripDots suffix)
          = true →
        classify_file (run_format_probes (some (maj, mi, pa)) probeR probeV
          ⟨none, none⟩) suffix = .raster) := by
  have hst : run_format_probes (some (maj, mi, pa)) probeR probeV ⟨none, none⟩ =
      ⟨some ["sdat", "sgrd", "sg-gr" ++ "d-z"], none⟩ := by
    simp [run_format_probes, get_raster_formats, get_vector_formats,
      get_formats, h]
  rw [show ("sg-gr" ++ "d-z" : String) = "sg-grd-z" from rfl] at hst
  refine ⟨by rw [hst], by rw [hst], ?_, ?_, ?_⟩
  · rw [hst, classify_file_some_none]
    by_cases hc : (["sdat", "sgrd", "sg-grd-z"] : List String).contains
        (stripDots suffix) = true
    · rw [hc]
      simp
    · simp only [Bool.not_eq_true] at hc
      rw [hc]
      simp
  · intro hc
    rw [hst, classify_file_some_none, hc]
    simp
  · intro hc
    rw [hst, classify_file_some_none, hc]
    simp

/-- Witness for C5 amended at version 3.9.9 with suffixes .sdat and .tif. -/
theorem c5_low_version_formats_witness :
    classify_file (run_format_probes (some (3, 9, 9)) [] [] ⟨none, none⟩)
        ".sdat" = .raster
    ∧ classify_file (run_format_probes (some (3, 9, 9)) [] [] ⟨none, none⟩)
        ".tif" = .generic := by
  constructor
  · exact (c5_low_version_formats 3 9 9 [] [] ".sdat" (by decide)).2.2.2.2
      (by decide)
  · exact (c5_low_version_formats 3 9 9 [] [] ".tif" (by decide)).2.2.2.1
      (by decide)

/-! ## C6 -/

/-- Claim C6, counterexample: reading the parameter attribute elevation of
a freshly built Tool (no parameters set) does not raise an AttributeError —
it yields the value None — and deleting the never-set flag returns normally,
leaving the flag unset. -/
theorem c6_counterexample :
    tool_getattr [] "elevation" ≠ .attrError
    ∧ flag_deleter ⟨none⟩ = ⟨none⟩ := by
  decide

/-- Claim C6, amended: neither misuse fails fast.  Deleting the flag —
whether or not one was ever set — silently resets it to the unset state,
and reading any parameter attribute of a Tool yields the stored value or
None, never an AttributeError, because Tool.__getattr__ is overridden with
a bare pass body. -/
theorem c6_misuse_returns_silently (f : Flag) (attrs : List (String × String))
    (name : String) :
    flag_deleter f = ⟨none⟩
    ∧ tool_getattr attrs name = .val (dictGet attrs name)
    ∧ tool_getattr attrs name ≠ .attrError := by
  refine ⟨rfl, ?_, ?_⟩
  · cases h : dictGet attrs name <;> simp [tool_getattr, h]
  · cases h : dictGet attrs name <;> simp [tool_getattr, h]

/-! ## C7 -/

theorem setParams_append (kvs : List (String × PyVal)) :
    ∀ (env : PEnv) (d : List (String × String)),
    (kvs.map Prod.fst).Nodup →
    (∀ k ∈ kvs.map Prod.fst, hasKey d k = false) →
    setParams env d kvs =
      d ++ kvs.map (fun kv => (kv.1, setItemValue env kv.1 kv.2.toStr)) := by
  induction kvs with
  | nil =>
    intro env d _ _
    simp [setParams]
  | cons kv rest ih =>
    intro env d hnd hkeys
    obtain ⟨k, v⟩ := kv
    simp only [List.map_cons, List.nodup_cons] at hnd
    have hk : hasKey d k = false := hkeys k (by simp)
    rw [setParams,
      show paramsSetItem env d k v = dictSet d k (setItemValue env k v.toStr)
        from rfl,
      dictSet_of_not_hasKey d k _ hk,
      ih env (d ++ [(k, setItemValue env k v.toStr)]) hnd.2 ?_]
    · simp
    · intro k2 hk2
      rw [hasKey_append]
      have h1 : hasKey d k2 = false := hkeys k2 (by simp [hk2])
      have h2 : (k == k2) = false := by
        refine beq_eq_false_iff_ne.mpr ?_
        intro he
        exact hnd.1 (by rw [he]; exact hk2)
      rw [h1, h2]
      rfl

/-- Claim C7: assigning a list of keyword parameters (of any Python value
type) through the setitem path stores, in insertion order, one entry per
distinct name whose value is the string produced from str() of the input
(possibly rewritten by the temp and suffix rules), and formatted yields
exactly one -NAME=value token per entry with the name upper-cased; being a
pure read, formatted gives the same sequence on repeated calls. -/
theorem c7_parameters_formatted (env : PEnv) (kvs : List (String × PyVal))
    (hnd : (kvs.map Prod.fst).Nodup) :
    setParams env [] kvs =
      kvs.map (fun kv => (kv.1, setItemValue env kv.1 kv.2.toStr))
    ∧ formatted (setParams env [] kvs)
        = kvs.map (fun kv => fmtToken kv.1 (setItemValue env kv.1 kv.2.toStr))
    ∧ formatted (setParams env [] kvs) = formatted (setParams env [] kvs) := by
  have h := setParams_append kvs env [] hnd (fun k _ => rfl)
  rw [List.nil_append] at h
  refine ⟨h, ?_, rfl⟩
  rw [h]
  simp only [formatted, List.map_map]
  rfl

/-- Witness for C7 at two concrete parameters of distinct Python types. -/
theorem c7_parameters_formatted_witness :
    formatted (setParams c7env []
        [("elevation", PyVal.pathLike "dem.tif"), ("method", PyVal.int 0)]) =
      ["-ELEVATION=dem.tif", "-METHOD=0"] := by
  have h := (c7_parameters_formatted c7env
    [("elevation", PyVal.pathLike "dem.tif"), ("method", PyVal.int 0)]
    (by decide)).2.1
  rw [h]
  decide

/-! ## C8 -/

theorem stage_ok (ignore : Bool) (t : StageSpec) (h : stageFails ignore t = false) :
    output_post_init t.name t.stdout t.stderr none ignore =
      .ok (stageOutput ignore t) := by
  obtain ⟨nm, so, se⟩ := t
  cases se with
  | none => rfl
  | some s =>
    cases ignore with
    | true =>
      by_cases he : (pyStrip s == "") = true
      · simp [output_post_init, stageOutput, he]
      · simp only [Bool.not_eq_true] at he
        simp [output_post_init, stageOutput, he]
    | false =>
      simp only [stageFails] at h
      have he : (pyStrip s == "") = true := by
        cases hb : (pyStrip s == "")
        · rw [hb] at h
          exact absurd h (by decide)
        · rfl
      simp [output_post_init, stageOutput, he]

theorem stage_err (ignore : Bool) (t : StageSpec) (h : stageFails ignore t = true) :
    output_post_init t.name t.stdout t.stderr none ignore =
      .error (stageError t) := by
  obtain ⟨nm, so, se⟩ := t
  cases se with
  | none => exact absurd h (by simp [stageFails])
  | some s =>
    simp only [stageFails] at h
    have h1 : (pyStrip s == "") = false := by
      cases hb : (pyStrip s == "")
      · rfl
      · rw [hb] at h
        simp at h
    have h2 : ignore = false := by
      cases hig : ignore
      · rfl
      · rw [hig] at h
        exact absurd h (by simp)
    subst h2
    simp [output_post_init, stageError, h1]

/-- Claim C8: the pipeline runs its stages strictly front to back.  When no
stage trips on stderr, every stage runs in order and one output is
collected per stage, in order.  When the stages split as clean-prefix,
failing stage, remainder, exactly the prefix stages and the failing stage
have their processes spawned — no later stage runs — and the failing
ExecutionError of the failing stage (stripped stderr plus that stage identity) is
propagated as the overall result. -/
theorem c8_pipeline_sequential (ignore : Bool) :
    (∀ ts : List StageSpec, (∀ t ∈ ts, stageFails ignore t = false) →
        pipeline_execute ignore ts =
          (ts.map StageSpec.name, .ok (ts.map (stageOutput ignore))))
    ∧ ∀ (pre : List StageSpec) (bad : StageSpec) (post : List StageSpec),
        (∀ t ∈ pre, stageFails ignore t = false) →
        stageFails ignore bad = true →
        pipeline_execute ignore (pre ++ bad :: post) =
          (pre.map StageSpec.name ++ [bad.name], .error (stageError bad)) := by
  constructor
  · intro ts hts
    induction ts with
    | nil => rfl
    | cons t rest ih =>
      have hok := stage_ok ignore t (hts t (by simp))
      have hrest := ih (fun x hx => hts x (by simp [hx]))
      simp only [pipeline_execute, hok, hrest, List.map_cons, Except.map]
  · intro pre bad post hpre hbad
    induction pre with
    | nil =>
      have herr := stage_err ignore bad hbad
      simp only [List.nil_append, pipeline_execute, herr, List.map_nil]
    | cons t rest ih =>
      have hok := stage_ok ignore t (hpre t (by simp))
      have hrest := ih (fun x hx => hpre x (by simp [hx]))
      simp only [List.cons_append, pipeline_execute, hok, List.map_cons,
        Except.map, List.append_eq]
      rw [hrest]

/-- Witness for C8: a three-stage pipeline whose second stage writes a real
stderr aborts after the second stage with the error of that stage; the third
stage never runs. -/
theorem c8_pipeline_sequential_witness :
    pipeline_execute false
        [⟨"tool1", some "out1", some "  "⟩, ⟨"tool2", none, some "boom"⟩,
          ⟨"tool3", none, none⟩] =
      (["tool1", "tool2"], .error ⟨"boom", "tool2"⟩) := by
  have h := (c8_pipeline_sequential false).2 [⟨"tool1", some "out1", some "  "⟩]
    ⟨"tool2", none, some "boom"⟩ [⟨"tool3", none, none⟩]
    (by decide) (by decide)
  exact h.trans rfl

/-! ## C9 -/

theorem applyFlagMuts_extends (ms : List FlagMut) : ∀ (h : FlagHeap) (r : Nat),
    ∃ ext, (applyFlagMuts h r ms).1 = h ++ ext := by
  induction ms with
  | nil =>
    intro h r
    exact ⟨[], by simp [applyFlagMuts]⟩
  | cons m rest ih =>
    intro h r
    cases m with
    | setF v =>
      obtain ⟨ext, hext⟩ := ih (h ++ [⟨v⟩]) h.length
      refine ⟨⟨v⟩ :: ext, ?_⟩
      show (applyFlagMuts (h ++ [⟨v⟩]) h.length rest).1 = h ++ ⟨v⟩ :: ext
      rw [hext, List.append_assoc]
      rfl
    | delF =>
      obtain ⟨ext, hext⟩ := ih (h ++ [⟨none⟩]) h.length
      refine ⟨⟨none⟩ :: ext, ?_⟩
      show (applyFlagMuts (h ++ [⟨none⟩]) h.length rest).1 = h ++ ⟨none⟩ :: ext
      rw [hext, List.append_assoc]
      rfl

theorem getD_append_of_lt (h ext : FlagHeap) : ∀ (i : Nat), i < h.length →
    (h ++ ext).getD i ⟨none⟩ = h.getD i ⟨none⟩ := by
  induction h with
  | nil =>
    intro i hi
    exact absurd hi (by simp)
  | cons a rest ih =>
    intro i hi
    cases i with
    | zero => rfl
    | succ n =>
      simp only [List.cons_append, List.getD_cons_succ]
      exact ih n (by simpa using hi)

/-- Claim C9: a Library or Tool inherits the parent Flag object by copying
the reference at construction time; since the flag setter and deleter both
rebind the parent to a freshly allocated Flag and never mutate a Flag in
place, any sequence of later parent flag mutations leaves the flag the
child observes exactly as it was at construction. -/
theorem c9_flag_copy_on_construction (h : FlagHeap) (parentRef : Nat)
    (ms : List FlagMut) (hr : parentRef < h.length) :
    readFlag (applyFlagMuts h parentRef ms).1 (childFlagRef parentRef) =
      readFlag h parentRef := by
  obtain ⟨ext, hext⟩ := applyFlagMuts_extends ms h parentRef
  simp only [childFlagRef, readFlag]
  rw [hext, getD_append_of_lt h ext parentRef hr]

/-- Witness for C9: the parent flag starts as --help, is then reassigned to
cores=8 and deleted; the child built before the mutations still reads
--help. -/
theorem c9_flag_copy_on_construction_witness :
    readFlag (applyFlagMuts [⟨some "--help"⟩] 0
        [FlagMut.setF (some "cores=8"), FlagMut.delF]).1 (childFlagRef 0) =
      ⟨some "--help"⟩ := by
  have h := c9_flag_copy_on_construction [⟨some "--help"⟩] 0
    [FlagMut.setF (some "cores=8"), FlagMut.delF] (by decide)
  rw [h]
  rfl

/-! ## C10 -/

theorem dirEx_append (fs : List (Nat × List String)) (p c : Nat)
    (l : List String) :
    dirEx (fs ++ [(c, l)]) p = (dirEx fs p || (c == p)) := by
  simp [dirEx, List.any_append]

theorem dirEx_removeDir_self (fs : List (Nat × List String)) (p : Nat) :
    dirEx (removeDir fs p) p = false := by
  induction fs with
  | nil => rfl
  | cons d rest ih =>
    by_cases hd : (d.1 == p) = true
    · rw [removeDir, if_pos hd]
      exact ih
    · simp only [Bool.not_eq_true] at hd
      rw [removeDir, if_neg (by simp [hd])]
      simp only [dirEx, List.any_cons, hd, Bool.false_or]
      exact ih

theorem dirEx_removeDir_mono (fs : List (Nat × List String)) (p n : Nat)
    (h : dirEx fs n = false) : dirEx (removeDir fs p) n = false := by
  induction fs with
  | nil => rfl
  | cons d rest ih =>
    simp only [dirEx, List.any_cons, Bool.or_eq_false_iff] at h
    by_cases hd : (d.1 == p) = true
    · rw [removeDir, if_pos hd]
      exact ih h.2
    · rw [removeDir, if_neg hd]
      simp only [dirEx, List.any_cons, h.1, Bool.false_or]
      exact ih h.2

theorem find?_append_fresh (fs : List (Nat × List String)) (c : Nat)
    (l : List String) (h : dirEx fs c = false) :
    (fs ++ [(c, l)]).find? (fun d => d.1 == c) = some (c, l) := by
  induction fs with
  | nil => simp [List.find?]
  | cons d rest ih =>
    simp only [dirEx, List.any_cons, Bool.or_eq_false_iff] at h
    rw [List.cons_append, List.find?_cons_of_neg _ (by simp [h.1]), ih h.2]

theorem dirContents_append_fresh (fs : List (Nat × List String)) (c : Nat)
    (l : List String) (h : dirEx fs c = false) :
    dirContents (fs ++ [(c, l)]) c = l := by
  rw [dirContents, find?_append_fresh fs c l h]
  rfl

theorem temp_dir_access_of_ex (st : TempState)
    (h : dirEx st.fs st.tdir = true) :
    temp_dir_access st = (st.tdir, st) := by
  rw [temp_dir_access, if_pos h]

theorem temp_dir_access_of_not_ex (st : TempState)
    (h : dirEx st.fs st.tdir = false) :
    temp_dir_access st =
      (st.counter, ⟨st.fs ++ [(st.counter, [])], st.counter + 1, st.counter⟩) := by
  rw [temp_dir_access, if_neg (by simp [h])]
  rfl

theorem temp_files_access_eq (st : TempState) :
    temp_files_access st =
      (dirContents (temp_dir_access st).2.fs (temp_dir_access st).1,
        (temp_dir_access st).2) := rfl

theorem temp_dir_access_spec (st : TempState) (hf : freshCounter st) :
    dirEx (temp_dir_access st).2.fs (temp_dir_access st).1 = true
    ∧ (temp_dir_access st).2.tdir = (temp_dir_access st).1
    ∧ freshCounter (temp_dir_access st).2
    ∧ dirEx (temp_dir_access st).2.fs (temp_dir_access st).2.counter = false := by
  by_cases hEx : dirEx st.fs st.tdir = true
  · rw [temp_dir_access_of_ex st hEx]
    exact ⟨hEx, rfl, hf, hf st.counter (Nat.le_refl _)⟩
  · simp only [Bool.not_eq_true] at hEx
    rw [temp_dir_access_of_not_ex st hEx]
    refine ⟨?_, rfl, ?_, ?_⟩
    · rw [dirEx_append]
      simp
    · intro n hn
      have hn2 : st.counter + 1 ≤ n := hn
      show dirEx (st.fs ++ [(st.counter, [])]) n = false
      rw [dirEx_append, hf n (by omega), beq_eq_false_iff_ne.mpr (by omega)]
      rfl
    · show dirEx (st.fs ++ [(st.counter, [])]) (st.counter + 1) = false
      rw [dirEx_append, hf (st.counter + 1) (by omega),
        beq_eq_false_iff_ne.mpr (by omega)]
      rfl

theorem temp_dir_access_idem (st : TempState) (hf : freshCounter st) :
    temp_dir_access (temp_dir_access st).2 =
      ((temp_dir_access st).1, (temp_dir_access st).2) := by
  obtain ⟨h1, h2, -, -⟩ := temp_dir_access_spec st hf
  rw [temp_dir_access, h2, if_pos h1]

theorem temp_dir_cleanup_spec (st : TempState) (hf : freshCounter st) :
    temp_dir_cleanup st =
      ⟨removeDir (temp_dir_access st).2.fs (temp_dir_access st).1,
        (temp_dir_access st).2.counter, (temp_dir_access st).1⟩ := by
  obtain ⟨-, h2, -, -⟩ := temp_dir_access_spec st hf
  have hkey : temp_dir_cleanup st =
      ⟨removeDir ((temp_dir_access (temp_dir_access st).2).2).fs
        ((temp_dir_access (temp_dir_access st).2)).1,
       ((temp_dir_access (temp_dir_access st).2).2).counter,
       ((temp_dir_access (temp_dir_access st).2).2).tdir⟩ := rfl
  rw [hkey, temp_dir_access_idem st hf]
  dsimp only
  rw [h2]

/-- Claim C10: accessing temp_dir always yields a directory existing
afterwards, which is the one the program object remembers; after
temp_dir_cleanup deleted the directory tree, the remembered directory no
longer exists, and the next temp_files access transparently creates a
fresh empty directory, so the temp-file list comes back empty and the
object stays usable. -/
theorem c10_temp_dir_lifecycle (st : TempState) (hf : freshCounter st) :
    dirEx (temp_dir_access st).2.fs (temp_dir_access st).1 = true
    ∧ (temp_dir_access st).2.tdir = (temp_dir_access st).1
    ∧ dirEx (temp_dir_cleanup st).fs (temp_dir_cleanup st).tdir = false
    ∧ (temp_files_access (temp_dir_cleanup st)).1 = [] := by
  obtain ⟨h1, h2, hfA, hcnt⟩ := temp_dir_access_spec st hf
  have hclean := temp_dir_cleanup_spec st hf
  refine ⟨h1, h2, ?_, ?_⟩
  · rw [hclean]
    exact dirEx_removeDir_self _ _
  · rw [hclean]
    have hgone : dirEx
        (removeDir (temp_dir_access st).2.fs (temp_dir_access st).1)
        (temp_dir_access st).1 = false := dirEx_removeDir_self _ _
    have hacc2 := temp_dir_access_of_not_ex
      ⟨removeDir (temp_dir_access st).2.fs (temp_dir_access st).1,
        (temp_dir_access st).2.counter, (temp_dir_access st).1⟩ hgone
    rw [temp_files_access_eq, hacc2]
    exact dirContents_append_fresh _ _ _ (dirEx_removeDir_mono _ _ _ hcnt)

/-- Witness for C10 at a concrete state: one existing temp directory
holding two files, allocation counter past it. -/
theorem c10_temp_dir_lifecycle_witness :
    dirEx (temp_dir_access ⟨[(0, ["a", "b"])], 1, 0⟩).2.fs
        (temp_dir_access ⟨[(0, ["a", "b"])], 1, 0⟩).1 = true
    ∧ (temp_files_access (temp_dir_cleanup ⟨[(0, ["a", "b"])], 1, 0⟩)).1 = [] := by
  have hfresh : freshCounter ⟨[(0, ["a", "b"])], 1, 0⟩ := by
    intro n hn
    have hn2 : 1 ≤ n := hn
    simp only [dirEx, List.any_cons, List.any_nil, Bool.or_false]
    exact beq_eq_false_iff_ne.mpr (by omega)
  have h := c10_temp_dir_lifecycle ⟨[(0, ["a", "b"])], 1, 0⟩ hfresh
  exact ⟨h.1, h.2.2.2⟩

end PySAGA
